import Mathlib

/-!
Verification of the osmos elasticsearch driver (`src/lib/drivers/elasticsearch.js`).

The driver's observable behaviour is embedded shallowly: each driver method is a
pure function from its inputs (and, where the method consults the elasticsearch
network client, from the client's response, which is out of scope and therefore
passed in as an explicit argument) to a description of the store call it issues
and/or the outcome it delivers to its completion callback.

JavaScript values are modelled by `Value`; an object is an association list of
fields.  A field that is absent from a record plays the role of a field holding
`undefined` (`lookupField` returns `none`), matching how the driver treats the
two interchangeably (`data[key] === undefined`, `original[pk] === undefined`).

The diff engine the driver calls (`objectDiff.diff`, from `lib/util/objectdiff`)
is part of the repository but its source is not available here; it is modelled
from the specification, see `objectDiff` below.
-/

set_option autoImplicit false

namespace Osmos

/-- A JavaScript value as the driver manipulates it: `null`, booleans, numbers,
strings, arrays and plain objects.  `undefined` is represented by absence (an
`Option` at the use sites), matching the driver's `=== undefined` tests. -/
inductive Value where
  | vNull
  | vBool (b : Bool)
  | vNum (n : Int)
  | vStr (s : String)
  | vArr (elems : List Value)
  | vObj (fields : List (String × Value))

/-! Structural (deep) equality on `Value`, written by hand because the deriving
handler does not support this nested inductive.  `beqValue` is JavaScript-style
deep structural comparison: it recurses into arrays element by element and into
objects field by field, exactly the equality the spec prescribes for the diff
engine (§4.2: «Equality is structural (recurses into nested objects/arrays
field-by-field), not identity-based»). -/

mutual

def beqValue : Value → Value → Bool
  | .vNull, .vNull => true
  | .vBool a, .vBool b => a == b
  | .vNum a, .vNum b => a == b
  | .vStr a, .vStr b => a == b
  | .vArr as, .vArr bs => beqValueList as bs
  | .vObj fs, .vObj gs => beqFieldList fs gs
  | _, _ => false

def beqValueList : List Value → List Value → Bool
  | [], [] => true
  | a :: as, b :: bs => beqValue a b && beqValueList as bs
  | _, _ => false

def beqFieldList : List (String × Value) → List (String × Value) → Bool
  | [], [] => true
  | e :: es, f :: fs => e.1 == f.1 && beqValue e.2 f.2 && beqFieldList es fs
  | _, _ => false

end

theorem beqValueList_sound (as : List Value)
    (ih : ∀ a ∈ as, ∀ b, beqValue a b = true → a = b) :
    ∀ bs, beqValueList as bs = true → as = bs := by
  induction as with
  | nil => intro bs h; cases bs with
    | nil => rfl
    | cons b bs => simp [beqValueList] at h
  | cons a as ihl =>
    intro bs h
    cases bs with
    | nil => simp [beqValueList] at h
    | cons b bs =>
      simp only [beqValueList, Bool.and_eq_true] at h
      have h1 := ih a (by simp) b h.1
      have h2 := ihl (fun x hx => ih x (by simp [hx])) bs h.2
      rw [h1, h2]

theorem beqFieldList_sound (es : List (String × Value))
    (ih : ∀ e ∈ es, ∀ w, beqValue e.2 w = true → e.2 = w) :
    ∀ fs, beqFieldList es fs = true → es = fs := by
  induction es with
  | nil => intro fs h; cases fs with
    | nil => rfl
    | cons f fs => simp [beqFieldList] at h
  | cons e es ihl =>
    intro fs h
    cases fs with
    | nil => simp [beqFieldList] at h
    | cons f fs =>
      simp only [beqFieldList, Bool.and_eq_true] at h
      have h1 : e.1 = f.1 := by
        have := h.1.1; exact eq_of_beq this
      have h2 := ih e (by simp) f.2 h.1.2
      have h3 := ihl (fun x hx => ih x (by simp [hx])) fs h.2
      have : e = f := Prod.ext h1 h2
      rw [this, h3]

theorem beqValue_sound_aux :
    ∀ (n : Nat) (a b : Value), sizeOf a ≤ n → beqValue a b = true → a = b := by
  intro n
  induction n with
  | zero =>
    intro a b hle h
    cases a <;> simp_arith at hle
  | succ m ih =>
    intro a b hle h
    cases a <;> cases b <;> simp only [beqValue, Bool.false_eq_true] at h
    case vNull.vNull => rfl
    case vBool.vBool x y => rw [eq_of_beq h]
    case vNum.vNum x y => rw [eq_of_beq h]
    case vStr.vStr x y => rw [eq_of_beq h]
    case vArr.vArr as bs =>
      have hsz : sizeOf as ≤ m := by simp_arith at hle; omega
      have helem : ∀ a ∈ as, ∀ b, beqValue a b = true → a = b := by
        intro a ha b hb
        have : sizeOf a < sizeOf as := List.sizeOf_lt_of_mem ha
        exact ih a b (by omega) hb
      rw [beqValueList_sound as helem bs h]
    case vObj.vObj es fs =>
      have hsz : sizeOf es ≤ m := by simp_arith at hle; omega
      have helem : ∀ e ∈ es, ∀ w, beqValue e.2 w = true → e.2 = w := by
        intro e he w hw
        have h1 : sizeOf e < sizeOf es := List.sizeOf_lt_of_mem he
        have h2 : sizeOf e.2 < sizeOf e := by
          obtain ⟨k, v⟩ := e; simp_arith
        exact ih e.2 w (by omega) hw
      rw [beqFieldList_sound es helem fs h]

theorem beqValue_sound (a b : Value) (h : beqValue a b = true) : a = b :=
  beqValue_sound_aux (sizeOf a) a b (Nat.le_refl _) h

theorem beqValue_refl_aux :
    ∀ (n : Nat) (a : Value), sizeOf a ≤ n → beqValue a a = true := by
  intro n
  induction n with
  | zero => intro a hle; cases a <;> simp_arith at hle
  | succ m ih =>
    intro a hle
    cases a <;> simp only [beqValue]
    case vBool x => exact beq_self_eq_true x
    case vNum x => exact beq_self_eq_true x
    case vStr x => exact beq_self_eq_true x
    case vArr as =>
      have hsz : sizeOf as ≤ m := by simp_arith at hle; omega
      clear hle
      induction as with
      | nil => simp [beqValueList]
      | cons a as ihl =>
        simp only [beqValueList, Bool.and_eq_true]
        have h1 : sizeOf a < sizeOf (a :: as) := by simp_arith
        have h2 : sizeOf as < sizeOf (a :: as) := by simp_arith
        exact ⟨ih a (by omega), ihl (by omega)⟩
    case vObj es =>
      have hsz : sizeOf es ≤ m := by simp_arith at hle; omega
      clear hle
      induction es with
      | nil => simp [beqFieldList]
      | cons e es ihl =>
        simp only [beqFieldList, Bool.and_eq_true]
        have h1 : sizeOf e.2 < sizeOf (e :: es) := by
          obtain ⟨k, v⟩ := e; simp_arith
        have h2 : sizeOf es < sizeOf (e :: es) := by simp_arith
        exact ⟨⟨beq_self_eq_true e.1, ih e.2 (by omega)⟩, ihl (by omega)⟩

theorem beqValue_refl (a : Value) : beqValue a a = true :=
  beqValue_refl_aux (sizeOf a) a (Nat.le_refl _)

instance : DecidableEq Value := fun a b =>
  decidable_of_iff (beqValue a b = true)
    ⟨beqValue_sound a b, fun h => h ▸ beqValue_refl a⟩

/-- A raw record: an ordered field-name-to-value mapping, exactly as a
JavaScript object literal.  Absent key = `undefined` field. -/
abbrev Record := List (String × Value)

/-- JavaScript truthiness of a defined value: `null`, `false`, `0` and the
empty string are falsy; objects and arrays are always truthy. -/
def truthy : Value → Bool
  | .vNull => false
  | .vBool b => b
  | .vNum n => n != 0
  | .vStr s => s != ""
  | .vArr _ => true
  | .vObj _ => true

/-- JavaScript truthiness of a possibly-undefined value (`undefined` is falsy). -/
def truthyOpt : Option Value → Bool
  | none => false
  | some v => truthy v

/-- JavaScript truthiness of a string (only the empty string is falsy). -/
def truthyStr (s : String) : Bool := s != ""

/-- Generic property read on an association list: the first binding of `key`,
or `none` (= `undefined`). -/
def jsLookup {α : Type} : List (String × α) → String → Option α
  | [], _ => none
  | e :: rest, key => if e.1 = key then some e.2 else jsLookup rest key

/-- Property read `r[k]` on a record. -/
def lookupField (r : Record) (key : String) : Option Value := jsLookup r key

/-- Property write `r[k] = v`: overwrite the existing binding in place, or
append a new binding at the end, as JavaScript assignment does. -/
def setField : Record → String → Value → Record
  | [], key, v => [(key, v)]
  | e :: rest, key, v =>
      if e.1 = key then (key, v) :: rest else e :: setField rest key v

/-- The key list of a record (`Object.keys`). -/
def keysOf (r : Record) : List String := r.map Prod.fst

/-- The union of the key lists of two records, keys of `a` first, then the keys
of `b` not already seen (the key set the diff engine classifies). -/
def unionKeys (a b : Record) : List String :=
  keysOf a ++ (keysOf b).filter (fun k => !(keysOf a).contains k)

/-- Models the external `deepmerge` dependency at the driver's use sites: the
result holds every field of `target`, with every field of `src` overwriting the
target field of the same name.  This is exact for the driver's calls, where the
target is a flat record of scalars (`{size}`, `{from, size}`) and the query
spec's keys are expected to be disjoint from it; the library's recursive merge
of nested objects is never reached on the driver's own fields. -/
def mergeRecords (target src : Record) : Record :=
  src.foldl (fun dst e => setField dst e.1 e.2) target

/-! ## Schema, Model, Document

The driver reads `model.bucket`, `model.schema.primaryKey`,
`document.model`, `document.primaryKey` and `document.__originalData__`.
The `Document` class itself lives outside the driver; only the properties the
driver dereferences are modelled.  The source writes `document.schema` at two
places (lines 127–128) and `document.model.schema` elsewhere; in the repository
both denote the same `Schema` object, so the embedding uses a single schema
reached through the model. -/

/-- The part of a Schema the driver reads: the primary-key field name
(the empty string standing for a falsy/undeclared primary key). -/
structure Schema where
  primaryKey : String
deriving DecidableEq

/-- The part of a Model the driver reads: its bucket (the elasticsearch type)
and its schema. -/
structure Model where
  bucket : String
  schema : Schema
deriving DecidableEq

/-- The part of a Document the driver reads: its model, its `primaryKey`
property (`none` = `undefined`) and its `__originalData__` snapshot. -/
structure Document where
  model : Model
  primaryKey : Option Value
  originalData : Record
deriving DecidableEq

/-! ## The diff engine

Modelled from the spec: the repository's `lib/util/objectdiff.js`
(required by the driver as `objectDiff`) is not among the available sources.
Spec §4.2: «for the union of field names present in either record, classify:
present in both, deep-equal → unchanged; present in both, not equal → changed;
present only in current → added; present only in original → removed.  Equality
is structural. … The ChangeSet additionally exposes a single boolean isEmpty
(all fields unchanged)».  The driver only ever branches on whether a
classification is the literal `'equal'`, rendered here as `.unchanged`;
`isEqual` renders the top-level `changes.changed === 'equal'` test. -/
inductive FieldStatus where
  | unchanged
  | changed
  | added
  | removed
deriving DecidableEq

/-- Modelled from the spec (§4.2): classification of one field of the union. -/
def classifyField (original current : Record) (k : String) : FieldStatus :=
  match lookupField original k, lookupField current k with
  | some a, some b => if a = b then .unchanged else .changed
  | none, some _ => .added
  | some _, none => .removed
  | none, none => .unchanged

/-- Modelled from the spec (§4.2): the ChangeSet `objectDiff.diff` returns, as
the driver observes it — a per-field classification over the union of keys
(`changes.value`) and the top-level all-unchanged flag (`changes.changed ===
'equal'`). -/
structure ChangeSet where
  isEqual : Bool
  value : List (String × FieldStatus)
deriving DecidableEq

/-- Modelled from the spec (§4.2): `objectDiff.diff(original, current)`. -/
def objectDiff (original current : Record) : ChangeSet :=
  let entries := (unionKeys original current).map
    (fun k => (k, classifyField original current k))
  { isEqual := entries.all (fun e => e.2 == FieldStatus.unchanged)
    value := entries }

/-- A JavaScript object some of whose fields may hold `undefined` explicitly
(the driver assigns `diff[key] = data[key]` even when `data[key]` is
`undefined`, which creates the key). -/
abbrev DocPatch := List (String × Option Value)

/-- Property read on a patch object; the outer `none` means the key is absent,
`some none` that the key is present holding `undefined`. -/
def patchLookup (p : DocPatch) (key : String) : Option (Option Value) := jsLookup p key

/-- JavaScript truthiness of `diff[key]`: falsy when the key is absent or holds
`undefined`, otherwise the truthiness of the held value. -/
def truthyPatchEntry : Option (Option Value) → Bool
  | some (some v) => truthy v
  | _ => false

/-- Source lines 111–123, the `diff` object: for every key of `changes.value`
whose classification is not `'equal'`, `diff[key] = data[key]`. -/
def buildDiff (data : Record) (cs : ChangeSet) : DocPatch :=
  (cs.value.filter (fun e => !(e.2 == FieldStatus.unchanged))).map
    (fun e => (e.1, lookupField data e.1))

/-- Source lines 111–123, the `set` object: the non-equal keys whose new value
is defined.  Computed by the source and then never used (dead code). -/
def buildSet (data : Record) (cs : ChangeSet) : Record :=
  (cs.value.filter (fun e => !(e.2 == FieldStatus.unchanged))).filterMap
    (fun e => (lookupField data e.1).map (fun v => (e.1, v)))

/-- Source lines 111–123, the `unset` object: `unset[key] = ''` for every
non-equal key whose new value is `undefined`.  Computed by the source and then
never used (dead code): it appears nowhere in the update payload. -/
def buildUnset (data : Record) (cs : ChangeSet) : Record :=
  (cs.value.filter
      (fun e => (!(e.2 == FieldStatus.unchanged)) && (lookupField data e.1).isNone)).map
    (fun e => (e.1, Value.vStr ""))

/-- JSON serialisation of a patch object, as performed by the network client on
the request body: keys holding `undefined` are dropped. -/
def serializePatch (p : DocPatch) : Record :=
  p.filterMap (fun e => e.2.map (fun v => (e.1, v)))

/-! ## The driver operations

An opaque backend error, forwarded verbatim by the driver
(e.g. the elasticsearch client's `"Not Found"` for a 404 response). -/

abbrev ESError := String

/-- The payload of the `client.update` call that `put` issues
(source lines 133–142): `body` is `{ doc: diff }`, so only `diff` — never the
`set`/`unset` maps — reaches the store. -/
structure UpdatePayload where
  index : String
  typ : String
  consistency : String := "quorum"
  refresh : Bool := true
  doc : DocPatch
  id : Option Value
deriving DecidableEq

/-- The payload of the `client.index` call that `post` issues
(source lines 63–74): the full `data` record, with the document's primary key
as `id` when it is truthy. -/
structure IndexCall where
  index : String
  typ : String
  body : Record
  published : Bool := true
  refresh : Bool := true
  consistency : String := "quorum"
  id : Option Value := none
deriving DecidableEq

/-- Source lines 62–74: the `client.index` request `post(document, data, cb)`
builds.  (On success the source then adopts `result._id` as the document's
primary key and calls back with no error.) -/
def postCall (esIndex : String) (document : Document) (data : Record) : IndexCall :=
  { index := esIndex
    typ := document.model.bucket
    body := data
    id := if truthyOpt document.primaryKey then document.primaryKey else none }

/-- What one call to `put` does.  The whole body of `put` runs inside
`process.nextTick`, so a `throwErr` is an exception raised from a deferred
tick: the completion callback is never invoked in that case. -/
inductive PutAction where
  /-- Source lines 95–97: `throw new OsmosError(...)` — the callback never runs. -/
  | throwErr (msg : String)
  /-- Source lines 99–101: `return self.post(document, data, callback)`. -/
  | delegatePost (data : Record)
  /-- Source line 105: `return callback(null)` — success, no store call. -/
  | noopSuccess
  /-- Source lines 133–144: `self.client.update(payload, callback)`. -/
  | updateCall (payload : UpdatePayload)
deriving DecidableEq

/-- Source lines 91–147: `put(document, data, callback)`.  Everything happens
inside `process.nextTick`.  The source reads the primary-key field name as
`document.model.schema.primaryKey` at lines 95 and 99 and as
`document.schema.primaryKey` at lines 127–128; both denote the same schema. -/
def put (esIndex : String) (document : Document) (data : Record) : PutAction :=
  if !truthyStr document.model.schema.primaryKey || !truthyOpt document.primaryKey then
    .throwErr "You cannot put a document without a primary key"
  else if lookupField document.originalData document.model.schema.primaryKey = none then
    .delegatePost data
  else
    let changes := objectDiff document.originalData data
    if changes.isEqual then
      .noopSuccess
    else
      let diffP := buildDiff data changes
      let primaryKey : Option Value :=
        if truthyPatchEntry (patchLookup diffP document.model.schema.primaryKey) then
          lookupField document.originalData document.model.schema.primaryKey
        else
          document.primaryKey
      .updateCall
        { index := esIndex
          typ := document.model.bucket
          doc := diffP
          id := primaryKey }

/-- The outcome `get` delivers to its callback. -/
inductive GetResult where
  /-- `callback(err)` — the client's error, e.g. 404 for an absent key,
  forwarded verbatim. -/
  | err (e : ESError)
  /-- `callback(null, result._source)` after the id injection. -/
  | found (record : Record)
deriving DecidableEq

/-- Source lines 42–60: `get(model, key, callback)` as a function of the
client's response (`result._source` and `result._id` on success).  On success
the store identifier is written into the source record under the schema's
primary-key field name before the record is handed to the callback. -/
def get (model : Model) (resp : Except ESError (Record × String)) : GetResult :=
  match resp with
  | .error e => .err e
  | .ok (source, id) => .found (setField source model.schema.primaryKey (.vStr id))

/-- The `client.delete` request `del` issues (source lines 154–160). -/
structure DeleteCall where
  index : String
  typ : String
  id : Option Value
  refresh : Bool := true
deriving DecidableEq

/-- Source lines 150–152: if the key is a plain object, replace it by the value
of its first property (`key[Object.keys(key)[0]]`; `none` = `undefined` when
the object has no properties). -/
def delKey (key : Value) : Option Value :=
  match key with
  | .vObj [] => none
  | .vObj (e :: _) => some e.2
  | v => some v

/-- Source lines 149–165: `del(model, key, callback)` as a function of the
client's response.  Returns the `client.delete` request it issues together
with the error value its callback receives — exactly the client's own error
value, forwarded verbatim by `function(err) { callback(err) }`. -/
def del (esIndex : String) (model : Model) (key : Value) (clientErr : Option ESError) :
    DeleteCall × Option ESError :=
  ({ index := esIndex, typ := model.bucket, id := delKey key }, clientErr)

/-- A search response at the client boundary: the `_source`/`_id` pairs of
`result.hits.hits` and the match count `result.hits.total`. -/
structure SearchResult where
  hits : List (Record × String)
  total : Nat
deriving DecidableEq

/-- Injection of the store identifier of one hit into its source record under
the schema's primary-key field name (`record._source[pk] = record._id`). -/
def injectId (model : Model) (hit : Record × String) : Record :=
  setField hit.1 model.schema.primaryKey (.vStr hit.2)

/-- The outcome `findOne` delivers to its callback. -/
inductive FindOneResult where
  /-- `callback(err)`. -/
  | err (e : ESError)
  /-- `callback(null, records[0])` when at least one hit exists, and
  `callback(null, null)` (`record = none`) when there is none. -/
  | success (record : Option Record)
deriving DecidableEq

/-- Source lines 167–196: `findOne(model, spec, callback)` as a function of
the client's search response.  With no hits the callback receives
`(null, null)`: a plain success whose result is `null`. -/
def findOne (model : Model) (resp : Except ESError SearchResult) : FindOneResult :=
  match resp with
  | .error e => .err e
  | .ok result =>
    match result.hits.map (injectId model) with
    | r :: _ => .success (some r)
    | [] => .success none

/-- The page `findLimit` hands to its callback on success
(source lines 261–269). -/
structure PageResult where
  docs : List Record
  count : Nat
  start : Nat
  limit : Nat
deriving DecidableEq

/-- Source lines 238–241: the search body `findLimit` builds,
`merge({from: start, size: limit}, spec)`. -/
def findLimitBody (spec : Record) (start limit : Nat) : Record :=
  mergeRecords [("from", Value.vNum start), ("size", Value.vNum limit)] spec

/-- Source lines 237–272: `findLimit(model, spec, start, limit, callback)` as a
function of the client's search response: an error is forwarded, a success is
wrapped as `{docs, count: result.hits.total, start, limit}` with the store
identifiers injected into the records. -/
def findLimit (model : Model) (start limit : Nat)
    (resp : Except ESError SearchResult) : Except ESError PageResult :=
  match resp with
  | .error e => .error e
  | .ok result =>
    .ok { docs := result.hits.map (injectId model)
          count := result.total
          start := start
          limit := limit }


/-! ## Concrete instances used by the claim witnesses and counterexamples -/

/-- A loaded document `{_id:"a", x:1}` whose caller changed `x` to `2`. -/
def c1Doc : Document :=
  { model := { bucket := "people", schema := { primaryKey := "_id" } }
    primaryKey := some (.vStr "a")
    originalData := [("_id", .vStr "a"), ("x", .vNum 1)] }

/-- The data supplied to `put` for `c1Doc`: only `x` differs. -/
def c1Data : Record := [("_id", .vStr "a"), ("x", .vNum 2)]

/-- The update payload `put` issues for `c1Doc`/`c1Data`. -/
def c1Payload : UpdatePayload :=
  { index := "idx", typ := "people", doc := [("x", some (.vNum 2))]
    id := some (.vStr "a") }

/-- A loaded document whose data is left untouched. -/
def c2Doc : Document :=
  { model := { bucket := "people", schema := { primaryKey := "_id" } }
    primaryKey := some (.vStr "a")
    originalData := [("_id", .vStr "a"), ("name", .vStr "x")] }

/-- A record that never round-tripped from the store (no `_id` in it). -/
def c2xRec : Record := [("name", .vStr "x")]

/-- A document with a truthy primaryKey property whose original snapshot has
no primary-key field, passed data deep-equal to its original snapshot. -/
def c2xDoc : Document :=
  { model := { bucket := "people", schema := { primaryKey := "_id" } }
    primaryKey := some (.vStr "a")
    originalData := c2xRec }

/-- A loaded document `{_id:"a"}` whose caller rewrote `_id` to `"b"`. -/
def c3Doc : Document :=
  { model := { bucket := "people", schema := { primaryKey := "_id" } }
    primaryKey := some (.vStr "b")
    originalData := [("_id", .vStr "a")] }

/-- The data supplied to `put` for `c3Doc`: `_id` changed to the truthy `"b"`,
`x` added. -/
def c3Data : Record := [("_id", .vStr "b"), ("x", .vNum 1)]

/-- The update payload `put` issues for `c3Doc`/`c3Data`: addressed by the
original key `"a"`. -/
def c3Payload : UpdatePayload :=
  { index := "idx", typ := "people"
    doc := [("_id", some (.vStr "b")), ("x", some (.vNum 1))]
    id := some (.vStr "a") }

/-- A loaded document `{_id:"a"}` whose caller rewrote `_id` to the falsy
`""`, with the in-memory primaryKey property holding `"b"`. -/
def c3xDoc : Document :=
  { model := { bucket := "people", schema := { primaryKey := "_id" } }
    primaryKey := some (.vStr "b")
    originalData := [("_id", .vStr "a")] }

/-- The data supplied to `put` for `c3xDoc`: `_id` changed to `""` (falsy). -/
def c3xData : Record := [("_id", .vStr "")]

/-- The update payload `put` issues for `c3xDoc`/`c3xData`: addressed by the
in-memory key `"b"`, not the original `"a"`. -/
def c3xPayload : UpdatePayload :=
  { index := "idx", typ := "people", doc := [("_id", some (.vStr ""))]
    id := some (.vStr "b") }

/-- A loaded document `{_id:"a", name:"x"}` whose caller removed `name`
(set it to `undefined`). -/
def c4Doc : Document :=
  { model := { bucket := "people", schema := { primaryKey := "_id" } }
    primaryKey := some (.vStr "a")
    originalData := [("_id", .vStr "a"), ("name", .vStr "x")] }

/-- The data supplied to `put` for `c4Doc`: `name` is gone. -/
def c4Data : Record := [("_id", .vStr "a")]

/-- The update payload `put` issues for `c4Doc`/`c4Data`: the removed field
rides along as `undefined` inside `doc`; no unset operation is issued. -/
def c4Payload : UpdatePayload :=
  { index := "idx", typ := "people", doc := [("name", none)]
    id := some (.vStr "a") }

/-- The model used by the `del` and `findOne` claims. -/
def c5Model : Model := { bucket := "people", schema := { primaryKey := "_id" } }

/-- The model used by the `findOne` claim. -/
def c6Model : Model := { bucket := "people", schema := { primaryKey := "_id" } }

/-- The model used by the `findLimit` claim. -/
def c8Model : Model := { bucket := "people", schema := { primaryKey := "_id" } }

/-- A query spec that carries only a query, no paging keys of its own. -/
def c8Spec : Record := [("query", .vObj [("match_all", .vObj [])])]

/-- Ten hits returned by the store for a window of size 10 over 15 matches. -/
def c8Hits : List (Record × String) :=
  [([("n", .vNum 0)], "h0"), ([("n", .vNum 1)], "h1"), ([("n", .vNum 2)], "h2"),
   ([("n", .vNum 3)], "h3"), ([("n", .vNum 4)], "h4"), ([("n", .vNum 5)], "h5"),
   ([("n", .vNum 6)], "h6"), ([("n", .vNum 7)], "h7"), ([("n", .vNum 8)], "h8"),
   ([("n", .vNum 9)], "h9")]

/-- The search response for the `findLimit` scenario: 10 hits, 15 total. -/
def c8Resp : SearchResult := { hits := c8Hits, total := 15 }

/-- A document whose model's schema declares no primary key. -/
def c9Doc : Document :=
  { model := { bucket := "people", schema := { primaryKey := "" } }
    primaryKey := some (.vStr "a")
    originalData := [] }

/-- A fresh document: the caller assigned a primary key in memory, but the
original snapshot (from `create`) has no primary-key field. -/
def c10Doc : Document :=
  { model := { bucket := "people", schema := { primaryKey := "_id" } }
    primaryKey := some (.vStr "526fb0b3970998723e000009")
    originalData := [] }

/-- The data supplied to `put` for `c10Doc`. -/
def c10Data : Record := [("name", .vStr "Marco"), ("email", .vStr "marcot@tabini.ca")]

/-! ## Basic lemmas about records, lookups and the diff -/

theorem jsLookup_isSome_iff {α : Type} (l : List (String × α)) (k : String) :
    (jsLookup l k).isSome = true ↔ k ∈ l.map Prod.fst := by
  induction l with
  | nil => simp [jsLookup]
  | cons e rest ih =>
    by_cases hek : e.1 = k
    · simp [jsLookup, hek]
    · simp [jsLookup, hek, ih, Ne.symm hek]

theorem jsLookup_eq_none_iff {α : Type} (l : List (String × α)) (k : String) :
    jsLookup l k = none ↔ k ∉ l.map Prod.fst := by
  rw [← jsLookup_isSome_iff]
  cases jsLookup l k <;> simp

theorem lookupField_eq_none_iff (r : Record) (k : String) :
    lookupField r k = none ↔ k ∉ keysOf r :=
  jsLookup_eq_none_iff r k

theorem patchLookup_eq_none_iff (p : DocPatch) (k : String) :
    patchLookup p k = none ↔ k ∉ p.map Prod.fst :=
  jsLookup_eq_none_iff p k

theorem jsLookup_form {α : Type} (f : String → α) (l : List (String × α))
    (hform : ∀ e ∈ l, e.2 = f e.1) (k : String) (hk : k ∈ l.map Prod.fst) :
    jsLookup l k = some (f k) := by
  induction l with
  | nil => simp at hk
  | cons e rest ih =>
    by_cases hek : e.1 = k
    · subst hek
      have hfe := hform e (by simp)
      simp [jsLookup, hfe]
    · simp only [jsLookup, hek, if_false]
      apply ih (fun x hx => hform x (by simp [hx]))
      simp only [List.map_cons, List.mem_cons] at hk
      rcases hk with h | h
      · exact absurd h.symm hek
      · exact h

theorem lookupField_setField_self (r : Record) (k : String) (v : Value) :
    lookupField (setField r k v) k = some v := by
  induction r with
  | nil => simp [setField, lookupField, jsLookup]
  | cons e rest ih =>
    by_cases hek : e.1 = k
    · simp [setField, hek, lookupField, jsLookup]
    · simp only [setField, hek, if_false]
      show jsLookup (e :: setField rest k v) k = some v
      simp only [jsLookup, hek, if_false]
      exact ih

theorem lookupField_setField_ne (r : Record) (k key : String) (v : Value)
    (hne : key ≠ k) : lookupField (setField r k v) key = lookupField r key := by
  induction r with
  | nil => simp [setField, lookupField, jsLookup, Ne.symm hne]
  | cons e rest ih =>
    by_cases hek : e.1 = k
    · have h2 : ¬ (k = key) := Ne.symm hne
      simp [setField, hek, lookupField, jsLookup, h2, hek ▸ h2]
    · simp only [setField, hek, if_false]
      show jsLookup (e :: setField rest k v) key = jsLookup (e :: rest) key
      by_cases heq : e.1 = key
      · simp [jsLookup, heq]
      · simp only [jsLookup, heq, if_false]
        exact ih

theorem mergeRecords_lookup_not_mem (src : Record) (target : Record) (k : String)
    (h : k ∉ keysOf src) :
    lookupField (mergeRecords target src) k = lookupField target k := by
  induction src generalizing target with
  | nil => rfl
  | cons e rest ih =>
    have hk1 : k ≠ e.1 := fun hk => h (by simp [keysOf, hk])
    have hk2 : k ∉ keysOf rest := fun hk => h (by
      simp only [keysOf, List.map_cons, List.mem_cons]
      exact Or.inr hk)
    show lookupField (mergeRecords (setField target e.1 e.2) rest) k = _
    rw [ih (setField target e.1 e.2) hk2, lookupField_setField_ne _ _ _ _ hk1]

theorem classifyField_eq_unchanged_iff (a b : Record) (k : String) :
    classifyField a b k = .unchanged ↔ lookupField a k = lookupField b k := by
  unfold classifyField
  rcases ha : lookupField a k with _ | va <;> rcases hb : lookupField b k with _ | vb <;>
    simp [ha, hb]

theorem mem_unionKeys (a b : Record) (k : String) :
    k ∈ unionKeys a b ↔ k ∈ keysOf a ∨ k ∈ keysOf b := by
  simp only [unionKeys, List.mem_append, List.mem_filter, Bool.not_eq_true']
  constructor
  · rintro (h | ⟨h, -⟩)
    · exact Or.inl h
    · exact Or.inr h
  · rintro (h | h)
    · exact Or.inl h
    · by_cases ha : k ∈ keysOf a
      · exact Or.inl ha
      · refine Or.inr ⟨h, ?_⟩
        rw [List.contains_eq_any_beq]
        simp only [List.any_eq_false, beq_eq_false_iff_ne]
        intro x hx hxk
        exact ha (by rw [eq_of_beq hxk]; exact hx)

theorem classifyField_ne_unchanged_mem (a b : Record) (k : String)
    (h : classifyField a b k ≠ .unchanged) : k ∈ unionKeys a b := by
  rw [mem_unionKeys]
  by_contra hc
  push_neg at hc
  have ha : lookupField a k = none := (lookupField_eq_none_iff a k).mpr hc.1
  have hb : lookupField b k = none := (lookupField_eq_none_iff b k).mpr hc.2
  exact h ((classifyField_eq_unchanged_iff a b k).mpr (ha.trans hb.symm))

theorem objectDiff_isEqual_iff (a b : Record) :
    (objectDiff a b).isEqual = true ↔ ∀ k, lookupField a k = lookupField b k := by
  simp only [objectDiff, List.all_eq_true, List.mem_map, beq_iff_eq,
    forall_exists_index, and_imp]
  constructor
  · intro h k
    by_cases hk : k ∈ unionKeys a b
    · exact (classifyField_eq_unchanged_iff a b k).mp (h _ k hk rfl)
    · rw [mem_unionKeys] at hk
      push_neg at hk
      rw [(lookupField_eq_none_iff a k).mpr hk.1, (lookupField_eq_none_iff b k).mpr hk.2]
  · intro h e k hk he
    rw [← he]
    exact (classifyField_eq_unchanged_iff a b k).mpr (h k)

theorem mem_buildDiff_keys_iff (a data : Record) (k : String) :
    k ∈ (buildDiff data (objectDiff a data)).map Prod.fst ↔
      lookupField a k ≠ lookupField data k := by
  simp only [buildDiff, objectDiff, List.map_map, List.mem_map, List.mem_filter,
    Function.comp, Bool.not_eq_eq_eq_not, Bool.not_true, beq_eq_false_iff_ne,
    ne_eq]
  constructor
  · rintro ⟨e, ⟨he, hne⟩, rfl⟩
    obtain ⟨k2, -, rfl⟩ := he
    exact fun hc => hne ((classifyField_eq_unchanged_iff a data k2).mpr hc)
  · intro hne
    have hcl : classifyField a data k ≠ .unchanged := fun hc =>
      hne ((classifyField_eq_unchanged_iff a data k).mp hc)
    exact ⟨(k, classifyField a data k),
      ⟨⟨k, classifyField_ne_unchanged_mem a data k hcl, rfl⟩, hcl⟩, rfl⟩

theorem buildDiff_entry_form (data : Record) (cs : ChangeSet) :
    ∀ e ∈ buildDiff data cs, e.2 = lookupField data e.1 := by
  intro e he
  simp only [buildDiff, List.mem_map] at he
  obtain ⟨x, -, rfl⟩ := he
  rfl

theorem patchLookup_buildDiff (a data : Record) (k : String)
    (hne : lookupField a k ≠ lookupField data k) :
    patchLookup (buildDiff data (objectDiff a data)) k = some (lookupField data k) :=
  jsLookup_form (lookupField data) _ (buildDiff_entry_form data _) k
    ((mem_buildDiff_keys_iff a data k).mpr hne)

theorem patchLookup_buildDiff_none (a data : Record) (k : String)
    (heq : lookupField a k = lookupField data k) :
    patchLookup (buildDiff data (objectDiff a data)) k = none :=
  (patchLookup_eq_none_iff _ k).mpr
    (fun hmem => ((mem_buildDiff_keys_iff a data k).mp hmem) heq)

/-! ## Inversion of `put` on its update branch -/

theorem put_updateCall_inv (esIndex : String) (d : Document) (data : Record)
    (p : UpdatePayload) (h : put esIndex d data = .updateCall p) :
    p.doc = buildDiff data (objectDiff d.originalData data) ∧
    p.id = (if truthyPatchEntry (patchLookup p.doc d.model.schema.primaryKey) then
        lookupField d.originalData d.model.schema.primaryKey
      else d.primaryKey) ∧
    p.index = esIndex ∧
    p.typ = d.model.bucket ∧
    lookupField d.originalData d.model.schema.primaryKey ≠ none ∧
    (objectDiff d.originalData data).isEqual = false := by
  simp only [put] at h
  split at h
  · exact absurd h (by simp)
  · split at h
    · exact absurd h (by simp)
    · split at h
      · exact absurd h (by simp)
      · rename_i hpk horig hneq
        injection h with h2
        subst h2
        refine ⟨rfl, rfl, rfl, rfl, horig, ?_⟩
        simpa using hneq

/-! ## The claims -/

/-- Claim C1: for every call to the driver's `put` that reaches the store
(the document's original snapshot has a primary-key value and the diff is not
empty), the update payload sent to the store contains exactly the fields on
which the original snapshot and the supplied data differ — changed, added or
removed — each bound to the value the supplied data holds for it (`undefined`
for a removed field); every field the diff classifies as equal is absent from
the payload's `doc` object and is therefore not overwritten by the partial
update. -/
theorem put_update_payload_exactly_diff (esIndex : String) (d : Document)
    (data : Record) (p : UpdatePayload) (h : put esIndex d data = .updateCall p)
    (k : String) :
    (k ∈ p.doc.map Prod.fst ↔ lookupField d.originalData k ≠ lookupField data k) ∧
    (lookupField d.originalData k ≠ lookupField data k →
      patchLookup p.doc k = some (lookupField data k)) := by
  obtain ⟨hdoc, -⟩ := put_updateCall_inv esIndex d data p h
  rw [hdoc]
  exact ⟨mem_buildDiff_keys_iff _ _ k, patchLookup_buildDiff _ _ k⟩

/-- Witness for C1 at a concrete call: original `{_id:"a", x:1}` and data
`{_id:"a", x:2}` produce a payload holding exactly the changed field `x`. -/
theorem put_update_payload_exactly_diff_witness :
    ("x" ∈ c1Payload.doc.map Prod.fst ↔
        lookupField c1Doc.originalData "x" ≠ lookupField c1Data "x") ∧
    (lookupField c1Doc.originalData "x" ≠ lookupField c1Data "x" →
      patchLookup c1Payload.doc "x" = some (lookupField c1Data "x")) :=
  put_update_payload_exactly_diff "idx" c1Doc c1Data c1Payload (by decide) "x"

/-- Claim C2 (amended): for every `put` call on a document whose schema
declares a primary key, whose primaryKey property is truthy and whose original
snapshot has a primary-key value, original snapshot deep-equal to the supplied
data implies that `put` invokes the callback with no error and performs no
store call.  (Without the original-snapshot condition the claim fails, see the
counterexample: `put` then delegates to `post`, which does write the store.) -/
theorem put_equal_data_noop (esIndex : String) (d : Document) (data : Record)
    (h1 : truthyStr d.model.schema.primaryKey = true)
    (h2 : truthyOpt d.primaryKey = true)
    (h3 : lookupField d.originalData d.model.schema.primaryKey ≠ none)
    (heq : ∀ k, lookupField d.originalData k = lookupField data k) :
    put esIndex d data = .noopSuccess := by
  have hiseq := (objectDiff_isEqual_iff d.originalData data).mpr heq
  simp [put, h1, h2, h3, hiseq]

/-- Witness for C2 (amended) at a concrete call: a loaded document saved with
its own unchanged data short-circuits to a plain success. -/
theorem put_equal_data_noop_witness :
    put "idx" c2Doc c2Doc.originalData = PutAction.noopSuccess :=
  put_equal_data_noop "idx" c2Doc c2Doc.originalData (by decide) (by decide)
    (by decide) (fun k => rfl)

/-- Counterexample to claim C2 as stated: a document whose original snapshot
lacks a primary-key value, given data deep-equal to that snapshot, does not
short-circuit — `put` delegates to `post`, which issues a `client.index`
store call. -/
theorem put_equal_data_counterexample :
    (∀ k, lookupField c2xDoc.originalData k = lookupField c2xRec k) ∧
    put "idx" c2xDoc c2xRec = .delegatePost c2xRec ∧
    put "idx" c2xDoc c2xRec ≠ .noopSuccess :=
  ⟨fun k => rfl, by decide, by decide⟩

/-- Claim C3 (amended): when the update reaches the store, the write is
addressed as follows — a truthy new primary-key value different from the
original: by the primary-key value of the original snapshot; a falsy new
primary-key value in the change set (changed to a falsy value, or removed,
i.e. `truthyOpt` of the new value is false): by the document's primaryKey
property, because the source tests `diff[pk]` for truthiness rather than
presence; primary-key field not in the change set: by the document's
primaryKey property.  The three cases cover every update.  (As stated the
claim demanded original-key addressing for every changed/added primary key;
the counterexample refutes that for a falsy new value.) -/
theorem put_update_addressing (esIndex : String) (d : Document) (data : Record)
    (p : UpdatePayload) (h : put esIndex d data = .updateCall p) :
    (∀ b : Value,
      lookupField data d.model.schema.primaryKey = some b → truthy b = true →
      lookupField d.originalData d.model.schema.primaryKey ≠ some b →
      p.id = lookupField d.originalData d.model.schema.primaryKey) ∧
    (lookupField d.originalData d.model.schema.primaryKey ≠
        lookupField data d.model.schema.primaryKey →
      truthyOpt (lookupField data d.model.schema.primaryKey) = false →
      p.id = d.primaryKey) ∧
    (lookupField d.originalData d.model.schema.primaryKey =
        lookupField data d.model.schema.primaryKey →
      p.id = d.primaryKey) := by
  obtain ⟨hdoc, hid, -, -, -, -⟩ := put_updateCall_inv esIndex d data p h
  refine ⟨?_, ?_, ?_⟩
  · intro b hdata htr hne
    have hneq : lookupField d.originalData d.model.schema.primaryKey ≠
        lookupField data d.model.schema.primaryKey := by
      rw [hdata]; exact hne
    have hpl : patchLookup p.doc d.model.schema.primaryKey =
        some (lookupField data d.model.schema.primaryKey) := by
      rw [hdoc]; exact patchLookup_buildDiff _ _ _ hneq
    rw [hid, hpl, hdata]
    simp [truthyPatchEntry, htr]
  · intro hneq hfalsy
    have hpl : patchLookup p.doc d.model.schema.primaryKey =
        some (lookupField data d.model.schema.primaryKey) := by
      rw [hdoc]; exact patchLookup_buildDiff _ _ _ hneq
    have ht : truthyPatchEntry
        (some (lookupField data d.model.schema.primaryKey)) = false := by
      cases hx : lookupField data d.model.schema.primaryKey with
      | none => rfl
      | some v =>
        rw [hx] at hfalsy
        simpa [truthyPatchEntry, truthyOpt] using hfalsy
    rw [hid, hpl, ht]
    simp
  · intro heq
    have hpl : patchLookup p.doc d.model.schema.primaryKey = none := by
      rw [hdoc]; exact patchLookup_buildDiff_none _ _ _ heq
    rw [hid, hpl]
    simp [truthyPatchEntry]

/-- Witness for C3 (amended) at a concrete call: `_id` changed from `"a"` to
the truthy `"b"` — the write is addressed by the original `"a"`. -/
theorem put_update_addressing_witness :
    ((∀ b : Value,
        lookupField c3Data "_id" = some b → truthy b = true →
        lookupField c3Doc.originalData "_id" ≠ some b →
        c3Payload.id = lookupField c3Doc.originalData "_id") ∧
      (lookupField c3Doc.originalData "_id" ≠ lookupField c3Data "_id" →
        truthyOpt (lookupField c3Data "_id") = false →
        c3Payload.id = c3Doc.primaryKey) ∧
      (lookupField c3Doc.originalData "_id" = lookupField c3Data "_id" →
        c3Payload.id = c3Doc.primaryKey)) ∧
    c3Payload.id = some (Value.vStr "a") :=
  ⟨put_update_addressing "idx" c3Doc c3Data c3Payload (by decide), by decide⟩

/-- Counterexample to claim C3 as stated: with the primary-key field changed
to the falsy new value `""`, the update is addressed by the document's
primaryKey property `"b"` and not by the original snapshot's key `"a"`,
because `diff[pk]` is tested for truthiness, not for presence. -/
theorem put_update_addressing_counterexample :
    lookupField c3xDoc.originalData "_id" ≠ lookupField c3xData "_id" ∧
    put "idx" c3xDoc c3xData = .updateCall c3xPayload ∧
    c3xPayload.id ≠ lookupField c3xDoc.originalData "_id" :=
  ⟨by decide, by decide, by decide⟩

/-- Claim C4 (code bug): for a field classified as removed, `put` issues no
unset operation at all.  At the failing input (original `{_id:"a", name:"x"}`,
data `{_id:"a"}`) the only store call is a partial update whose `doc` carries
`name` as `undefined` — which JSON serialisation drops, so the body reaching
the store is empty — while the `unset` map the source builds at lines 108–123
(naming exactly `name`) appears nowhere in the payload: dead code. -/
theorem put_removed_field_never_unset :
    put "idx" c4Doc c4Data = .updateCall c4Payload ∧
    c4Payload.doc = [("name", none)] ∧
    serializePatch c4Payload.doc = [] ∧
    buildUnset c4Data (objectDiff c4Doc.originalData c4Data) =
      [("name", Value.vStr "")] :=
  ⟨by decide, rfl, rfl, by decide⟩

/-- Claim C5 (code bug): `del` forwards the elasticsearch client's outcome to
its callback verbatim.  The client reports deleting an absent document as a
404 "Not Found" error, so deleting a non-existent key surfaces an error to the
caller instead of succeeding as the driver contract requires. -/
theorem del_forwards_notfound_error :
    del "idx" c5Model (Value.vStr "gone") (some "Not Found") =
      ({ index := "idx", typ := "people", id := some (Value.vStr "gone")
         refresh := true }, some "Not Found") ∧
    (del "idx" c5Model (Value.vStr "gone") (some "Not Found")).2 ≠ none :=
  ⟨rfl, by decide⟩

/-- Claim C6 (amended): `findOne` forwards client errors, and on a successful
search maps the first hit (with the store identifier injected) — or, when
there is no matching record, reports a plain success whose result is `null`:
an explicit empty result, not a NotFound error signal. -/
theorem findOne_outcomes (m : Model) (e : ESError) (hit : Record × String)
    (rest : List (Record × String)) (total : Nat) :
    findOne m (.error e) = .err e ∧
    findOne m (.ok { hits := [], total := total }) = .success none ∧
    findOne m (.ok { hits := hit :: rest, total := total }) =
      .success (some (injectId m hit)) :=
  ⟨rfl, rfl, rfl⟩

/-- Counterexample to claim C6 as stated: with no matching record, `findOne`
calls back `(null, null)` — a plain success carrying `null`, and for no error
value does it report an error signal. -/
theorem findOne_no_match_counterexample :
    findOne c6Model (Except.ok { hits := [], total := 0 }) =
      FindOneResult.success none ∧
    ∀ e : ESError,
      findOne c6Model (Except.ok { hits := [], total := 0 }) ≠
        FindOneResult.err e := by
  refine ⟨rfl, fun e h => ?_⟩
  rw [show findOne c6Model (Except.ok { hits := [], total := 0 }) =
    FindOneResult.success none from rfl] at h
  exact FindOneResult.noConfusion h

/-- Claim C7: on a found key, `get` hands the callback the stored source
record with the store's identifier written into it under the schema's
primary-key field name (so that field reads back as the identifier); on a
client error — the client's signal for an absent key — it hands the callback
that explicit error, never an empty object. -/
theorem get_outcomes (m : Model) (source : Record) (id : String) (e : ESError) :
    get m (.ok (source, id)) =
      .found (setField source m.schema.primaryKey (.vStr id)) ∧
    lookupField (setField source m.schema.primaryKey (.vStr id))
      m.schema.primaryKey = some (.vStr id) ∧
    get m (.error e) = .err e :=
  ⟨rfl, lookupField_setField_self source m.schema.primaryKey (.vStr id), rfl⟩

/-- Claim C8: for a query spec without paging keys of its own, `findLimit`
requests the window `{from: start, size: limit}`, and wraps a successful
response as a page holding the hit records with identifiers injected (at most
`limit` of them when the store honours the requested size), the store's total
match count, and the requested offset and limit. -/
theorem findLimit_returns_page (m : Model) (spec : Record) (start limit : Nat)
    (r : SearchResult)
    (hf : "from" ∉ keysOf spec) (hs : "size" ∉ keysOf spec)
    (hn : r.hits.length ≤ limit) :
    lookupField (findLimitBody spec start limit) "from" = some (.vNum start) ∧
    lookupField (findLimitBody spec start limit) "size" = some (.vNum limit) ∧
    findLimit m start limit (.ok r) =
      .ok { docs := r.hits.map (injectId m), count := r.total,
            start := start, limit := limit } ∧
    (r.hits.map (injectId m)).length ≤ limit := by
  refine ⟨?_, ?_, rfl, ?_⟩
  · unfold findLimitBody
    rw [mergeRecords_lookup_not_mem spec _ _ hf]
    rfl
  · unfold findLimitBody
    rw [mergeRecords_lookup_not_mem spec _ _ hs]
    rfl
  · simpa using hn

/-- Witness for C8 at the spec's scenario: 15 matching records, offset 0,
limit 10 — the page reports `count = 15` and carries 10 records. -/
theorem findLimit_returns_page_witness :
    (lookupField (findLimitBody c8Spec 0 10) "from" = some (Value.vNum 0) ∧
     lookupField (findLimitBody c8Spec 0 10) "size" = some (Value.vNum 10) ∧
     findLimit c8Model 0 10 (Except.ok c8Resp) =
       Except.ok { docs := c8Resp.hits.map (injectId c8Model),
                   count := c8Resp.total, start := 0, limit := 10 } ∧
     (c8Resp.hits.map (injectId c8Model)).length ≤ 10) ∧
    (c8Resp.hits.map (injectId c8Model)).length = 10 ∧ c8Resp.total = 15 :=
  ⟨findLimit_returns_page c8Model c8Spec 0 10 c8Resp (by decide) (by decide)
      (by decide),
    by decide, rfl⟩

/-- Claim C9: when the schema declares no primary key or the document's
primaryKey property is falsy, `put` raises the OsmosError from inside the
deferred `process.nextTick` body — the result is a thrown exception, a
distinct outcome from every callback-invoking one, so the completion callback
never observes a MissingPrimaryKey error (or anything else). -/
theorem put_missing_pk_throws (esIndex : String) (d : Document) (data : Record)
    (h : truthyStr d.model.schema.primaryKey = false ∨
      truthyOpt d.primaryKey = false) :
    put esIndex d data =
      .throwErr "You cannot put a document without a primary key" := by
  have hc : (!truthyStr d.model.schema.primaryKey || !truthyOpt d.primaryKey)
      = true := by
    rcases h with h | h <;> simp [h]
  simp [put, hc]

/-- Witness for C9 at a concrete call: a schema with no primary-key field
makes `put` throw from the deferred tick. -/
theorem put_missing_pk_throws_witness :
    put "idx" c9Doc [("name", Value.vStr "Marco")] =
      PutAction.throwErr "You cannot put a document without a primary key" :=
  put_missing_pk_throws "idx" c9Doc [("name", Value.vStr "Marco")]
    (Or.inl (by decide))

/-- Claim C10: a document with a (truthy) primary-key value whose original
snapshot has no primary-key field is not partially updated: `put` delegates to
`post`, whose `client.index` request stores the full supplied data as a new
record. -/
theorem put_never_loaded_delegates_post (esIndex : String) (d : Document)
    (data : Record)
    (h1 : truthyStr d.model.schema.primaryKey = true)
    (h2 : truthyOpt d.primaryKey = true)
    (h3 : lookupField d.originalData d.model.schema.primaryKey = none) :
    put esIndex d data = .delegatePost data ∧
    (postCall esIndex d data).body = data :=
  ⟨by simp [put, h1, h2, h3], rfl⟩

/-- Witness for C10 at a concrete call: a fresh document given a key in
memory is posted whole, not diffed. -/
theorem put_never_loaded_delegates_post_witness :
    put "idx" c10Doc c10Data = PutAction.delegatePost c10Data ∧
    (postCall "idx" c10Doc c10Data).body = c10Data :=
  put_never_loaded_delegates_post "idx" c10Doc c10Data (by decide) (by decide)
    (by decide)

end Osmos
